import Mathlib

/-!
Verification of the WalterClient RPC/streaming engine (src/client.ts).

The TypeScript source is shallowly embedded: JavaScript values flowing
through the validators are modelled by an inductive `Json` type (with
`Option Json` standing for possibly-`undefined` values), thrown errors
become `Except` results, and the stateful client (session id, request
counter) becomes explicit state passing.  Network interactions
(`fetch`, `JSON.parse`, the outcome of each poll) are supplied as
oracles, so each theorem quantifies over every response the remote
endpoint could give.
-/

namespace Walter

/-- A JavaScript/JSON value as seen by the validators in client.ts.
Numbers are modelled as naturals: no claim depends on negative or
fractional numeric payloads. -/
inductive Json where
  | null
  | bool (b : Bool)
  | num (n : Nat)
  | str (s : String)
  | arr (elems : List Json)
  | obj (fields : List (String × Json))

/-- The string produced by the JavaScript `typeof` operator
(`typeof null` is "object"; arrays are reported separately by the
source's `Array.isArray` branch). -/
def jsTypeof : Json → String
  | .null => "object"
  | .bool _ => "boolean"
  | .num _ => "number"
  | .str _ => "string"
  | .arr _ => "object"
  | .obj _ => "object"

/-- JavaScript truthiness of a defined value (used by `if (body.error)`
and similar checks in the source). -/
def truthy : Json → Bool
  | .null => false
  | .bool b => b
  | .num n => !(n == 0)
  | .str s => !(s == "")
  | .arr _ => true
  | .obj _ => true

/-- `assertObject(value, context)` from client.ts.  `none` models an
`undefined` value. -/
def assertObject (value : Option Json) (context : String) :
    Except String (List (String × Json)) :=
  match value with
  | some (.obj fields) => .ok fields
  | some .null => .error (context ++ ": expected object, got null")
  | some (.arr _) => .error (context ++ ": expected object, got array")
  | some v => .error (context ++ ": expected object, got " ++ jsTypeof v)
  | none => .error (context ++ ": expected object, got undefined")

/-- `assertString(value, field, context)` from client.ts. -/
def assertString (value : Option Json) (field context : String) :
    Except String String :=
  match value with
  | some (.str s) => .ok s
  | some v =>
      .error (context ++ ": expected string for " ++ field ++ ", got " ++ jsTypeof v)
  | none =>
      .error (context ++ ": expected string for " ++ field ++ ", got undefined")

/-- JavaScript `Array.prototype.map` with a validator that may throw:
the first thrown error aborts the whole traversal. -/
def mapExcept (f : Json → Except String α) : List Json → Except String (List α)
  | [] => .ok []
  | x :: xs =>
    match f x with
    | .error m => .error m
    | .ok a =>
      match mapExcept f xs with
      | .error m => .error m
      | .ok rest => .ok (a :: rest)

/-- `assertArray(value, field, context, itemValidator)` from client.ts. -/
def assertArray (value : Option Json) (field context : String)
    (f : Json → Except String α) : Except String (List α) :=
  match value with
  | some (.arr xs) => mapExcept f xs
  | some v =>
      .error (context ++ ": expected array for " ++ field ++ ", got " ++ jsTypeof v)
  | none =>
      .error (context ++ ": expected array for " ++ field ++ ", got undefined")

/-- `DEFAULT_RETRY_AFTER_SECONDS` from client.ts. -/
def DEFAULT_RETRY_AFTER_SECONDS : Nat := 4

/-- The `ResponseStatus` union from client.ts.  The `partial` field of
the processing variant is called `part` here. -/
inductive ResponseStatus where
  | processing (part : Option String) (retry_after_seconds : Nat)
  | complete (response : String)
  | error (error : String)
deriving DecidableEq

/-- `validateResponseStatus(raw)` from client.ts.  The JS `switch` on
the `status` discriminator is an equality dispatch, rendered as an
`if`-chain. -/
def validateResponseStatus (raw : Json) : Except String ResponseStatus :=
  match assertObject (some raw) "ResponseStatus" with
  | .error m => .error m
  | .ok obj =>
    match assertString (obj.lookup "status") "status" "ResponseStatus" with
    | .error m => .error m
    | .ok status =>
      if status = "processing" then
        .ok (.processing
          (match obj.lookup "partial" with
           | some (.str p) => some p
           | _ => none)
          (match obj.lookup "retry_after_seconds" with
           | some (.num n) => n
           | _ => DEFAULT_RETRY_AFTER_SECONDS))
      else if status = "complete" then
        match assertString (obj.lookup "response") "response" "ResponseStatus" with
        | .error m => .error m
        | .ok r => .ok (.complete r)
      else if status = "error" then
        match assertString (obj.lookup "error") "error" "ResponseStatus" with
        | .error m => .error m
        | .ok e => .ok (.error e)
      else
        .error ("ResponseStatus: unknown status " ++ status)

/-! ### Errors and the tool invoker -/

/-- A thrown JavaScript `Error` value.  `transport` is the `HttpError`
built in `rpc` for a non-success HTTP status (the only error kind that
carries an `httpStatus`); `err` is a plain `Error(message)` (decode,
RPC, notification and tool-level errors). -/
inductive WErr where
  | transport (httpStatus : Nat)
  | err (msg : String)
deriving DecidableEq

/-- `isSessionError(error)` from client.ts: only an `Error` carrying
`httpStatus === 404` counts. -/
def isSessionError : WErr → Bool
  | .transport status => status == 404
  | .err _ => false

/-- One validated `{ type, text }` content item of a tool result. -/
structure ContentItem where
  type : String
  text : String
deriving DecidableEq

/-- The per-item validator inside `callToolInner`: every item — text or
not — must be an object with string `type` and string `text` (non-text
types only produce a log warning, they are not rejected). -/
def validateContentItem (context : String) (item : Json) :
    Except String ContentItem :=
  match assertObject (some item) context with
  | .error m => .error m
  | .ok c =>
    match assertString (c.lookup "type") "type" context with
    | .error m => .error m
    | .ok ty =>
      match assertString (c.lookup "text") "text" context with
      | .error m => .error m
      | .ok text => .ok ⟨ty, text⟩

/-- `callToolInner(name, args, signal)` from client.ts, with the
outcome of the underlying `rpc("tools/call", …)` supplied as
`rpcResult`.  Decode errors are rethrown as plain errors; `isError:
true` raises a tool-level error whose message is the first content
item's text, falling back to "Unknown tool error". -/
def callToolInner (name : String) (rpcResult : Except WErr Json) :
    Except WErr (List ContentItem) :=
  match rpcResult with
  | .error e => .error e
  | .ok raw =>
    match assertObject (some raw) ("tools/call(" ++ name ++ ")") with
    | .error m => .error (.err m)
    | .ok result =>
      match assertArray (result.lookup "content") "content"
          ("tools/call(" ++ name ++ ")")
          (validateContentItem ("tools/call(" ++ name ++ ").content[]")) with
      | .error m => .error (.err m)
      | .ok content =>
        match result.lookup "isError" with
        | some (.bool true) =>
            .error (.err ((content.head?.map ContentItem.text).getD
              "Unknown tool error"))
        | _ => .ok content

/-- `callTool` from client.ts, at the level of its retry control flow.
`init i` is the outcome of the (i+1)-th `ensureInitialized`
(re-running the shared handshake), `attempt i` the outcome of the
(i+1)-th `callToolInner`.  Returns the overall outcome together with
the number of `callToolInner` attempts made and the number of
`resetSession` calls performed. -/
def callToolModel {α : Type} (init : Nat → Except WErr Unit)
    (attempt : Nat → Except WErr α) : Except WErr α × Nat × Nat :=
  match init 0 with
  | .error e => (.error e, 0, 0)
  | .ok _ =>
    match attempt 0 with
    | .ok v => (.ok v, 1, 0)
    | .error e =>
      if isSessionError e then
        match init 1 with
        | .error e2 => (.error e2, 1, 1)
        | .ok _ => (attempt 1, 2, 1)
      else (.error e, 1, 0)

/-- `extractText(content)` from client.ts. -/
def extractText (content : List ContentItem) : String :=
  String.intercalate "\n"
    ((content.filter (fun c => c.type == "text")).map ContentItem.text)

/-- `parseJson(content)` from client.ts.  `jsParse` is the oracle for
the JavaScript `JSON.parse` builtin (`none` = it threw). -/
def parseJsonModel (jsParse : String → Option Json)
    (content : List ContentItem) : Except WErr Json :=
  match jsParse (extractText content) with
  | some v => .ok v
  | none =>
      .error (.err ("Walter returned non-JSON response ("
        ++ toString (extractText content).length ++ " chars)"))

/-- Substring containment on character lists, used to state what it
would mean for an error message to "include a preview" of a text. -/
def containsSub (pat s : List Char) : Bool :=
  s.tails.any (fun t => pat.isPrefixOf t)

/-! ### Client state, request ids, session capture -/

/-- `MAX_REQUEST_ID` from client.ts. -/
def MAX_REQUEST_ID : Nat := 1000000

/-- The mutable fields of a `WalterClient` relevant to the claims:
`sessionId`, `requestId`, and whether `initPromise` is non-null
(`initDone`). -/
structure ClientState where
  sessionId : Option String
  requestId : Nat
  initDone : Bool
deriving DecidableEq

/-- Field initializers of `WalterClient`: `sessionId = null`,
`requestId = 0`, `initPromise = null`. -/
def initialClient : ClientState := ⟨none, 0, false⟩

/-- `nextRequestId()` from client.ts: `requestId = (requestId %
MAX_REQUEST_ID) + 1`, returning the new value. -/
def nextRequestId (s : ClientState) : Nat × ClientState :=
  let r := s.requestId % MAX_REQUEST_ID + 1
  (r, { s with requestId := r })

/-- `resetSession()` from client.ts. -/
def resetSession (_s : ClientState) : ClientState :=
  { sessionId := none, requestId := 0, initDone := false }

/-- The counter state after `k` successive `nextRequestId` calls;
since `nextRequestId` stores the value it returns, `(idSeq s
k).requestId` is the id allocated by the k-th call (for `k ≥ 1`). -/
def idSeq (s : ClientState) : Nat → ClientState
  | 0 => s
  | k + 1 => (nextRequestId (idSeq s k)).2

/-- `captureSessionId(response)` from client.ts: `headers.get` yields
`none` when the header is absent, and the `if (newSessionId)`
truthiness check also ignores a present-but-empty value. -/
def captureSessionId (header : Option String) (sessionId : Option String) :
    Option String :=
  match header with
  | some h => if h == "" then sessionId else some h
  | none => sessionId

/-- One HTTP response as observed by `rpc`/`notify`: the `ok` flag and
numeric status, the `mcp-session-id` header, and the body — `.ok`
when `response.json()` parses, `.error rawText` when it throws. -/
structure FetchResponse where
  ok : Bool
  status : Nat
  statusText : String
  sessionHeader : Option String
  body : Except String Json

/-- `rpc(method, params, signal)` from client.ts, given the server's
response.  Allocates a request id, captures the session header
(before the `ok` check, so also on failures), then classifies the
outcome. -/
def rpcModel (method : String) (resp : FetchResponse) (s : ClientState) :
    Except WErr (Option Json) × ClientState :=
  let s1 := (nextRequestId s).2
  let s2 := { s1 with sessionId := captureSessionId resp.sessionHeader s1.sessionId }
  if !resp.ok then
    (.error (.transport resp.status), s2)
  else
    match resp.body with
    | .error rawText =>
        (.error (.err ("Walter API returned non-JSON response for rpc("
          ++ method ++ ") (" ++ toString resp.status ++ " " ++ resp.statusText
          ++ "): " ++ rawText.take 100)), s2)
    | .ok bodyJson =>
      match assertObject (some bodyJson) ("rpc(" ++ method ++ ") response") with
      | .error m => (.error (.err m), s2)
      | .ok fields =>
        match fields.lookup "error" with
        | some e =>
          if truthy e then
            match assertObject (some e) ("rpc(" ++ method ++ ") error") with
            | .error m => (.error (.err m), s2)
            | .ok errObj =>
                (.error (.err ("Walter RPC error: "
                  ++ (match errObj.lookup "message" with
                      | some (.str m) => m
                      | _ => "Unknown RPC error"))), s2)
          else (.ok (fields.lookup "result"), s2)
        | none => (.ok (fields.lookup "result"), s2)

/-- `notify(method, params, signal)` from client.ts: no request id, the
session header is captured before the `ok` check. -/
def notifyModel (method : String) (resp : FetchResponse) (s : ClientState) :
    Except WErr Unit × ClientState :=
  let s2 := { s with sessionId := captureSessionId resp.sessionHeader s.sessionId }
  if !resp.ok then
    (.error (.err ("Walter notification " ++ method ++ " failed: "
      ++ toString resp.status ++ " " ++ resp.statusText)), s2)
  else (.ok (), s2)

/-! ### The streaming poller (`chatStreaming`)

Wall-clock time (`Date.now()`) is an explicit natural number of
milliseconds.  The environment is given by oracles: `polls i` is the
outcome of the (i+1)-th `getResponse` call (`.error` = it threw),
`dur i` the milliseconds that call took, and `abortAt` the instant at
which the caller's `AbortSignal` fires (`none` = never).  `onPartial`
invocations are recorded in order in the `emitted` trace. -/

/-- Whether `signal?.aborted` reads true at time `now`. -/
def signalAborted (abortAt : Option Nat) (now : Nat) : Bool :=
  match abortAt with
  | some t => decide (t ≤ now)
  | none => false

/-- Errors a `chatStreaming` call can raise.  `aborted` is the
`AbortError` a `delay` rejects with when the signal fires during the
sleep; `cancelled`/`timedOut` are the two final throws after the
loop; `walter` is the "Walter error: …" throw on an error status;
`poll` is a transient poll error re-raised after three consecutive
failures. -/
inductive StreamErr where
  | aborted
  | cancelled
  | timedOut
  | walter (msg : String)
  | poll (msg : String)
deriving DecidableEq

/-- The value `chatStreaming` resolves with. -/
structure StreamResult where
  response : String
  chat_id : String
deriving DecidableEq

/-- The loop-carried state of `chatStreaming`: the clock, how many
`getResponse` calls were issued, `lastPartial`, `consecutiveErrors`,
and the trace of `onPartial` emissions. -/
structure LoopState where
  now : Nat
  pollIdx : Nat
  lastPart : String
  consecutiveErrors : Nat
  emitted : List String
deriving DecidableEq

/-- `delay(ms, signal)` from client.ts: rejects with an abort error if
the signal has already fired or fires before the timer does,
otherwise resolves `ms` later. -/
def delayRun (abortAt : Option Nat) (now ms : Nat) : Except StreamErr Nat :=
  match abortAt with
  | some t =>
    if t ≤ now then .error .aborted
    else if t < now + ms then .error .aborted
    else .ok (now + ms)
  | none => .ok (now + ms)

/-- The `status.partial && status.partial !== lastPartial` guard of the
processing branch: `some p` means `lastPartial` is set to `p` and
`onPartial(p)` is invoked; `none` means neither happens.  JavaScript
truthiness makes an empty-string partial behave like an absent one. -/
def emitUpdate (part : Option String) (lastPart : String) : Option String :=
  match part with
  | some p => if p != "" && p != lastPart then some p else none
  | none => none

/-- Apply `emitUpdate` to the loop state: record the new `lastPartial`
and the `onPartial` invocation when the guard passes. -/
def applyEmit (part : Option String) (s : LoopState) : LoopState :=
  match emitUpdate part s.lastPart with
  | some p => { s with lastPart := p, emitted := s.emitted ++ [p] }
  | none => s

/-- Outcome of one pass through the `while` head and body:
`done` = the call finishes (return or throw) with this result in this
state; `cont` = the loop continues from the new state. -/
inductive StepRes where
  | done (r : Except StreamErr StreamResult) (s : LoopState)
  | cont (s : LoopState)

/-- One iteration of the poll loop of `chatStreaming` (client.ts lines
533-566): the `while` condition check (with the corresponding final
throw from lines 568-570 when it fails), one `getResponse`, and the
branch on its outcome. -/
def chatStep (chat_id : String) (polls : Nat → Except String ResponseStatus)
    (dur : Nat → Nat) (abortAt : Option Nat) (deadline : Nat)
    (s : LoopState) : StepRes :=
  if signalAborted abortAt s.now then .done (.error .cancelled) s
  else if deadline ≤ s.now then .done (.error .timedOut) s
  else
    match polls s.pollIdx with
    | .error e =>
      let s1 : LoopState :=
        { s with now := s.now + dur s.pollIdx, pollIdx := s.pollIdx + 1,
                 consecutiveErrors := s.consecutiveErrors + 1 }
      if 3 ≤ s1.consecutiveErrors then .done (.error (.poll e)) s1
      else
        match delayRun abortAt s1.now (2000 * 2 ^ (s1.consecutiveErrors - 1)) with
        | .error err => .done (.error err) s1
        | .ok n2 => .cont { s1 with now := n2 }
    | .ok st =>
      let s1 : LoopState :=
        { s with now := s.now + dur s.pollIdx, pollIdx := s.pollIdx + 1,
                 consecutiveErrors := 0 }
      match st with
      | .processing part retry =>
        let s2 := applyEmit part s1
        match delayRun abortAt s2.now (retry * 1000) with
        | .error err => .done (.error err) s2
        | .ok n2 => .cont { s2 with now := n2 }
      | .complete r => .done (.ok ⟨r, chat_id⟩) s1
      | .error e => .done (.error (.walter e)) s1

/-- The poll loop of `chatStreaming`, iterating `chatStep`.  Fuel
bounds the number of iterations so the function is total; `none`
means the fuel ran out before the loop exited. -/
def chatLoop (chat_id : String) (polls : Nat → Except String ResponseStatus)
    (dur : Nat → Nat) (abortAt : Option Nat) (deadline : Nat) :
    Nat → LoopState → Option (Except StreamErr StreamResult × LoopState)
  | 0, _ => none
  | fuel + 1, s =>
    match chatStep chat_id polls dur abortAt deadline s with
    | .done r s' => some (r, s')
    | .cont s' => chatLoop chat_id polls dur abortAt deadline fuel s'

/-- `maxPollMs` from `chatStreaming`: the 5-minute deadline. -/
def maxPollMs : Nat := 5 * 60 * 1000

/-- `chatStreaming` after a successful `sendMessage` (which resolved
`chat_id`): fixes the deadline at `startNow + maxPollMs`, sleeps the
2-second settling delay, and runs the poll loop. -/
def chatStreamingModel (chat_id : String)
    (polls : Nat → Except String ResponseStatus) (dur : Nat → Nat)
    (abortAt : Option Nat) (startNow fuel : Nat) :
    Option (Except StreamErr StreamResult × LoopState) :=
  let deadline := startNow + maxPollMs
  match delayRun abortAt startNow 2000 with
  | .error err => some (.error err, ⟨startNow, 0, "", 0, []⟩)
  | .ok n => chatLoop chat_id polls dur abortAt deadline fuel ⟨n, 0, "", 0, []⟩

/-! ### Concrete poll traces used by the claims -/

/-- The C1 trace: Processing "a", Processing "a", Processing "ab",
Complete "done" (server retry interval 4s, the default). -/
def pollsHappy : Nat → Except String ResponseStatus := fun i =>
  [Except.ok (ResponseStatus.processing (some "a") 4),
   Except.ok (ResponseStatus.processing (some "a") 4),
   Except.ok (ResponseStatus.processing (some "ab") 4),
   Except.ok (ResponseStatus.complete "done")].getD i (.error "no more polls")

/-- Two transient poll failures, then Complete. -/
def pollsTwoFailures : Nat → Except String ResponseStatus := fun i =>
  [Except.error "e1", Except.error "e2",
   Except.ok (ResponseStatus.complete "done")].getD i (.error "no more polls")

/-- Three consecutive transient poll failures. -/
def pollsThreeFailures : Nat → Except String ResponseStatus := fun i =>
  [Except.error "e1", Except.error "e2",
   Except.error "e3"].getD i (.error "no more polls")

/-- A failure, a success (resetting the error counter), then three more
failures. -/
def pollsResetThenFailures : Nat → Except String ResponseStatus := fun i =>
  [Except.error "e1", Except.ok (ResponseStatus.processing none 4),
   Except.error "e3", Except.error "e4",
   Except.error "e5"].getD i (.error "no more polls")

/-- Instantaneous polls: each `getResponse` call takes 0 ms. -/
def durZero : Nat → Nat := fun _ => 0

/-! ### Helper lemmas about the poll loop -/

theorem delayRun_ok_eq {abortAt : Option Nat} {now ms n : Nat}
    (h : delayRun abortAt now ms = .ok n) : n = now + ms := by
  cases abortAt with
  | none => simp [delayRun] at h; omega
  | some t =>
    by_cases h1 : t ≤ now
    · simp [delayRun, h1] at h
    · by_cases h2 : t < now + ms
      · simp [delayRun, h1, h2] at h
      · simp [delayRun, h1, h2] at h; omega

theorem delayRun_error_eq {abortAt : Option Nat} {now ms : Nat} {e : StreamErr}
    (h : delayRun abortAt now ms = .error e) :
    e = .aborted ∧ ∃ t, abortAt = some t := by
  cases abortAt with
  | none => simp [delayRun] at h
  | some t =>
    refine ⟨?_, t, rfl⟩
    by_cases h1 : t ≤ now
    · simp [delayRun, h1] at h; simp [h]
    · by_cases h2 : t < now + ms
      · simp [delayRun, h1, h2] at h; simp [h]
      · simp [delayRun, h1, h2] at h

theorem emitUpdate_eq_some {part : Option String} {lastPart p : String}
    (h : emitUpdate part lastPart = some p) : p ≠ "" := by
  cases part with
  | none => simp [emitUpdate] at h
  | some q =>
    by_cases hq : (q != "" && q != lastPart) = true
    · have hq' : q ≠ "" ∧ q ≠ lastPart := by simpa using hq
      simp [emitUpdate, hq] at h
      rcases h with rfl
      exact hq'.1
    · simp [emitUpdate, hq] at h

/-- The state a step leaves the loop in, whether it exits or
continues. -/
def stateOf : StepRes → LoopState
  | .done _ s => s
  | .cont s => s

theorem applyEmit_emitted {part : Option String} {s : LoopState}
    (hs : "" ∉ s.emitted) : "" ∉ (applyEmit part s).emitted := by
  unfold applyEmit
  cases hE : emitUpdate part s.lastPart with
  | none => exact hs
  | some p =>
    show "" ∉ s.emitted ++ [p]
    intro hmem
    rcases List.mem_append.mp hmem with h' | h'
    · exact hs h'
    · exact emitUpdate_eq_some hE (List.mem_singleton.mp h').symm

theorem chatStep_emitted {cid : String}
    {polls : Nat → Except String ResponseStatus} {dur : Nat → Nat}
    {abortAt : Option Nat} {deadline : Nat} {s : LoopState}
    (hs : "" ∉ s.emitted) :
    "" ∉ (stateOf (chatStep cid polls dur abortAt deadline s)).emitted := by
  simp only [chatStep]
  split
  · exact hs
  · split
    · exact hs
    · split
      · -- transient poll error
        split
        · exact hs
        · split
          · exact hs
          · exact hs
      · -- successful poll
        split
        · -- processing
          split
          · exact applyEmit_emitted hs
          · exact applyEmit_emitted hs
        · exact hs
        · exact hs

/-- The poll loop never records an `onPartial` invocation with the
empty string: emissions come only from `emitUpdate`, whose truthiness
guard rejects `""`. -/
theorem chatLoop_emitted_no_empty {cid : String}
    {polls : Nat → Except String ResponseStatus} {dur : Nat → Nat}
    {abortAt : Option Nat} {deadline : Nat} :
    ∀ (fuel : Nat) (s : LoopState) {r : Except StreamErr StreamResult}
      {s' : LoopState},
      chatLoop cid polls dur abortAt deadline fuel s = some (r, s') →
      "" ∉ s.emitted → "" ∉ s'.emitted := by
  intro fuel
  induction fuel with
  | zero => intro s r s' h hs; simp [chatLoop] at h
  | succ fuel ih =>
    intro s r s' h hs
    simp only [chatLoop] at h
    cases hstep : chatStep cid polls dur abortAt deadline s with
    | done r2 s2 =>
      rw [hstep] at h
      simp only [Option.some.injEq, Prod.mk.injEq] at h
      obtain ⟨-, rfl⟩ := h
      have h2 := @chatStep_emitted cid polls dur abortAt deadline s hs
      rw [hstep] at h2
      exact h2
    | cont s2 =>
      rw [hstep] at h
      have h2 := @chatStep_emitted cid polls dur abortAt deadline s hs
      rw [hstep] at h2
      exact ih s2 h h2

theorem applyEmit_now {part : Option String} {s : LoopState} :
    (applyEmit part s).now = s.now := by
  unfold applyEmit
  cases emitUpdate part s.lastPart <;> rfl

theorem applyEmit_consecutiveErrors {part : Option String} {s : LoopState} :
    (applyEmit part s).consecutiveErrors = s.consecutiveErrors := by
  unfold applyEmit
  cases emitUpdate part s.lastPart <;> rfl

/-- A continuing step happens only strictly before the deadline and,
when every poll takes at least a millisecond, advances the clock. -/
theorem chatStep_cont_facts {cid : String}
    {polls : Nat → Except String ResponseStatus} {dur : Nat → Nat}
    {abortAt : Option Nat} {deadline : Nat} {s s2 : LoopState}
    (hd : ∀ i, 1 ≤ dur i)
    (h : chatStep cid polls dur abortAt deadline s = .cont s2) :
    s.now + 1 ≤ s2.now ∧ s.now < deadline := by
  simp only [chatStep] at h
  split at h
  · simp at h
  · split at h
    · simp at h
    · next hc2 =>
      have hlt : s.now < deadline := by omega
      refine ⟨?_, hlt⟩
      split at h
      · -- transient poll error
        split at h
        · simp at h
        · split at h
          · simp at h
          · next n2 hdel =>
            simp only [StepRes.cont.injEq] at h
            obtain rfl := h
            have hn2 := delayRun_ok_eq hdel
            have hdur := hd s.pollIdx
            dsimp only at hn2 ⊢
            omega
      · -- successful poll
        split at h
        · -- processing
          split at h
          · simp at h
          · next n2 hdel =>
            simp only [StepRes.cont.injEq] at h
            obtain rfl := h
            have hn2 := delayRun_ok_eq hdel
            rw [applyEmit_now] at hn2
            have hdur := hd s.pollIdx
            dsimp only at hn2 ⊢
            omega
        · simp at h
        · simp at h

/-- Under a trace of nothing but Processing statuses, any exit of the
loop is by the `while`-condition failing (cancelled / timed out) or by
an aborted sleep — and each carries its reason. -/
theorem chatStep_processing_done {cid : String}
    {polls : Nat → Except String ResponseStatus} {dur : Nat → Nat}
    {abortAt : Option Nat} {deadline : Nat} {s : LoopState}
    {r : Except StreamErr StreamResult} {s' : LoopState}
    (hp : ∀ i, ∃ p rt, polls i = .ok (.processing p rt))
    (h : chatStep cid polls dur abortAt deadline s = .done r s') :
    (r = .error .cancelled ∧ signalAborted abortAt s'.now = true)
    ∨ (r = .error .timedOut ∧ signalAborted abortAt s'.now = false
        ∧ deadline ≤ s'.now)
    ∨ (r = .error .aborted ∧ ∃ t, abortAt = some t) := by
  simp only [chatStep] at h
  split at h
  · next hcond =>
    simp only [StepRes.done.injEq] at h
    obtain ⟨rfl, rfl⟩ := h
    exact Or.inl ⟨rfl, hcond⟩
  · next hc1 =>
    split at h
    · next hc2 =>
      simp only [StepRes.done.injEq] at h
      obtain ⟨rfl, rfl⟩ := h
      exact Or.inr (Or.inl ⟨rfl, by simpa using hc1, hc2⟩)
    · split at h
      · next e heq =>
        obtain ⟨p, rt, hpoll⟩ := hp s.pollIdx
        rw [hpoll] at heq
        simp at heq
      · next st heq =>
        obtain ⟨p, rt, hpoll⟩ := hp s.pollIdx
        rw [hpoll] at heq
        simp only [Except.ok.injEq] at heq
        subst heq
        dsimp only at h
        split at h
        · next err hdel =>
          simp only [StepRes.done.injEq] at h
          obtain ⟨rfl, rfl⟩ := h
          obtain ⟨rfl, t, ht⟩ := delayRun_error_eq hdel
          exact Or.inr (Or.inr ⟨rfl, t, ht⟩)
        · simp at h

/-- With positive poll durations, fuel `deadlineGap + 1` suffices for
the loop to exit. -/
theorem chatLoop_total {cid : String}
    {polls : Nat → Except String ResponseStatus} {dur : Nat → Nat}
    {abortAt : Option Nat} {deadline : Nat}
    (hd : ∀ i, 1 ≤ dur i) :
    ∀ (fuel : Nat) (s : LoopState), deadline ≤ s.now + fuel →
      (chatLoop cid polls dur abortAt deadline (fuel + 1) s).isSome := by
  intro fuel
  induction fuel with
  | zero =>
    intro s hle
    simp only [chatLoop]
    cases hstep : chatStep cid polls dur abortAt deadline s with
    | done r2 s2 => simp
    | cont s2 =>
      have := (chatStep_cont_facts hd hstep).2
      omega
  | succ fuel ih =>
    intro s hle
    simp only [chatLoop]
    cases hstep : chatStep cid polls dur abortAt deadline s with
    | done r2 s2 => simp
    | cont s2 =>
      have hfacts := chatStep_cont_facts hd hstep
      exact ih s2 (by omega)

theorem chatLoop_processing_result {cid : String}
    {polls : Nat → Except String ResponseStatus} {dur : Nat → Nat}
    {abortAt : Option Nat} {deadline : Nat}
    (hp : ∀ i, ∃ p rt, polls i = .ok (.processing p rt)) :
    ∀ (fuel : Nat) (s : LoopState) {r : Except StreamErr StreamResult}
      {s' : LoopState},
      chatLoop cid polls dur abortAt deadline fuel s = some (r, s') →
      (r = .error .cancelled ∧ signalAborted abortAt s'.now = true)
      ∨ (r = .error .timedOut ∧ signalAborted abortAt s'.now = false
          ∧ deadline ≤ s'.now)
      ∨ (r = .error .aborted ∧ ∃ t, abortAt = some t) := by
  intro fuel
  induction fuel with
  | zero => intro s r s' h; simp [chatLoop] at h
  | succ fuel ih =>
    intro s r s' h
    simp only [chatLoop] at h
    cases hstep : chatStep cid polls dur abortAt deadline s with
    | done r2 s2 =>
      rw [hstep] at h
      simp only [Option.some.injEq, Prod.mk.injEq] at h
      obtain ⟨rfl, rfl⟩ := h
      exact chatStep_processing_done hp hstep
    | cont s2 =>
      rw [hstep] at h
      exact ih s2 h

/-! ### Claim theorems -/

/-- Claim C1: on the polled-status sequence [Processing "a",
Processing "a", Processing "ab", Complete "done"], `chatStreaming`
emits exactly the partials "a" then "ab" (the duplicate "a" is
suppressed by the exact-inequality guard against the last emitted
partial), issues exactly four polls, and resolves with response
"done" and the resolved chat id. -/
theorem c1_streaming_happy_path :
    chatStreamingModel "chat-1" pollsHappy durZero none 0 10 =
      some (.ok ⟨"done", "chat-1"⟩, ⟨14000, 4, "ab", 0, ["a", "ab"]⟩) := by
  rfl

/-- Claim C2: transient poll failures are counted and retried with
exponential backoff, the counter resets on success, and the third
consecutive failure re-raises the error.  Conjuncts 1-3, concrete
runs: two failures then Complete still succeeds, after backoffs of
2000 then 4000 ms (final clock 8000 = 2000 settling + 2000 + 4000);
three consecutive failures raise the third error with exactly three
`getResponse` calls made (pollIdx = 3 — no fourth fetch) and no
backoff after the final failure; a success between failures resets
the counter, so the run then tolerates two fresh failures before the
third consecutive one is raised (five polls in total).  Conjunct 4,
general: a failing poll with post-increment counter below 3 is
followed by a backoff sleep of 2000 * 2 ^ (counter - 1) ms and the
loop continues (or the sleep is aborted).  Conjunct 5, general: a
failing poll that brings the counter to 3 re-raises that error at
once, with no backoff and no further fetch.  Conjunct 6, general:
any successful poll resets the counter to 0. -/
theorem c2_poll_error_backoff :
    (chatStreamingModel "chat-1" pollsTwoFailures durZero none 0 10 =
      some (.ok ⟨"done", "chat-1"⟩, ⟨8000, 3, "", 0, []⟩))
    ∧ (chatStreamingModel "chat-1" pollsThreeFailures durZero none 0 10 =
      some (.error (.poll "e3"), ⟨8000, 3, "", 3, []⟩))
    ∧ (chatStreamingModel "chat-1" pollsResetThenFailures durZero none 0 10 =
      some (.error (.poll "e5"), ⟨14000, 5, "", 3, []⟩))
    ∧ (∀ (cid : String) (polls : Nat → Except String ResponseStatus)
        (dur : Nat → Nat) (abortAt : Option Nat) (deadline : Nat)
        (s : LoopState) (e : String),
        signalAborted abortAt s.now = false → s.now < deadline →
        polls s.pollIdx = .error e →
        s.consecutiveErrors + 1 < 3 →
        chatStep cid polls dur abortAt deadline s =
          (match delayRun abortAt (s.now + dur s.pollIdx)
              (2000 * 2 ^ s.consecutiveErrors) with
           | .error err => .done (.error err)
               ⟨s.now + dur s.pollIdx, s.pollIdx + 1, s.lastPart,
                 s.consecutiveErrors + 1, s.emitted⟩
           | .ok n2 => .cont ⟨n2, s.pollIdx + 1, s.lastPart,
                 s.consecutiveErrors + 1, s.emitted⟩))
    ∧ (∀ (cid : String) (polls : Nat → Except String ResponseStatus)
        (dur : Nat → Nat) (abortAt : Option Nat) (deadline : Nat)
        (s : LoopState) (e : String),
        signalAborted abortAt s.now = false → s.now < deadline →
        polls s.pollIdx = .error e →
        3 ≤ s.consecutiveErrors + 1 →
        chatStep cid polls dur abortAt deadline s =
          .done (.error (.poll e))
            ⟨s.now + dur s.pollIdx, s.pollIdx + 1, s.lastPart,
              s.consecutiveErrors + 1, s.emitted⟩)
    ∧ (∀ (cid : String) (polls : Nat → Except String ResponseStatus)
        (dur : Nat → Nat) (abortAt : Option Nat) (deadline : Nat)
        (s : LoopState) (st : ResponseStatus),
        signalAborted abortAt s.now = false → s.now < deadline →
        polls s.pollIdx = .ok st →
        (stateOf (chatStep cid polls dur abortAt deadline s)).consecutiveErrors
          = 0) := by
  refine ⟨rfl, rfl, rfl, ?_, ?_, ?_⟩
  · intro cid polls dur abortAt deadline s e habort hlt hpoll h3
    have hna : ¬ (signalAborted abortAt s.now = true) := by simp [habort]
    have hnd : ¬ (deadline ≤ s.now) := by omega
    have hn3 : ¬ (3 ≤ s.consecutiveErrors + 1) := by omega
    simp only [chatStep, if_neg hna, if_neg hnd, hpoll, hn3, if_false,
      Nat.add_sub_cancel]
  · intro cid polls dur abortAt deadline s e habort hlt hpoll h3
    have hna : ¬ (signalAborted abortAt s.now = true) := by simp [habort]
    have hnd : ¬ (deadline ≤ s.now) := by omega
    simp only [chatStep, if_neg hna, if_neg hnd, hpoll, h3, if_true]
  · intro cid polls dur abortAt deadline s st habort hlt hpoll
    have hna : ¬ (signalAborted abortAt s.now = true) := by simp [habort]
    have hnd : ¬ (deadline ≤ s.now) := by omega
    cases st with
    | processing part retry =>
      simp only [chatStep, if_neg hna, if_neg hnd, hpoll]
      split
      · simp [stateOf, applyEmit_consecutiveErrors]
      · simp [stateOf, applyEmit_consecutiveErrors]
    | complete r => simp [chatStep, if_neg hna, if_neg hnd, hpoll, stateOf]
    | error e => simp [chatStep, if_neg hna, if_neg hnd, hpoll, stateOf]

/-- Witness for C2's general conjuncts: the first transient failure at
counter 0 backs off exactly 2000 ms and continues. -/
theorem c2_poll_error_backoff_witness :
    chatStep "chat-1" pollsThreeFailures durZero none 302000
        ⟨2000, 0, "", 0, []⟩
      = .cont ⟨4000, 1, "", 1, []⟩ :=
  c2_poll_error_backoff.2.2.2.1 "chat-1" pollsThreeFailures durZero none
    302000 ⟨2000, 0, "", 0, []⟩ "e1" rfl (by decide) rfl (by decide)

/-- Claim C3: `chatStreaming` never exits its poll loop silently.  On
a trace of nothing but Processing statuses (no Complete, no Error,
no poll failure), with each poll taking at least 1 ms: without a
cancellation signal the call terminates (fuel maxPollMs + 1 is
enough) and raises the timeout error once the 5-minute deadline has
elapsed; with a cancellation signal firing no later than the
deadline, it raises a cancellation error (the explicit cancelled
throw at the loop-condition check, or the AbortError of an
interrupted sleep). -/
theorem c3_no_silent_exit (cid : String)
    (polls : Nat → Except String ResponseStatus) (dur : Nat → Nat)
    (startNow : Nat)
    (hp : ∀ i, ∃ p rt, polls i = .ok (.processing p rt))
    (hd : ∀ i, 1 ≤ dur i) :
    (∃ s', chatStreamingModel cid polls dur none startNow (maxPollMs + 1)
        = some (.error .timedOut, s'))
    ∧ (∀ t, t ≤ startNow + maxPollMs →
        ∃ e s',
          chatStreamingModel cid polls dur (some t) startNow (maxPollMs + 1)
            = some (.error e, s')
          ∧ (e = .cancelled ∨ e = .aborted)) := by
  constructor
  · have hinit : delayRun none startNow 2000 = .ok (startNow + 2000) := rfl
    have htot := @chatLoop_total cid polls dur none
      (startNow + maxPollMs) hd maxPollMs
      ⟨startNow + 2000, 0, "", 0, []⟩
      (by show startNow + maxPollMs ≤ startNow + 2000 + maxPollMs; omega)
    obtain ⟨⟨r, s'⟩, heq⟩ := Option.isSome_iff_exists.mp htot
    rcases chatLoop_processing_result hp _ _ heq with
      ⟨rfl, habort⟩ | ⟨rfl, -, -⟩ | ⟨rfl, t, ht⟩
    · simp [signalAborted] at habort
    · exact ⟨s', by simp only [chatStreamingModel, maxPollMs] at heq ⊢; exact heq⟩
    · simp at ht
  · intro t htle
    by_cases h1 : t ≤ startNow
    · refine ⟨.aborted, ⟨startNow, 0, "", 0, []⟩, ?_, Or.inr rfl⟩
      simp only [chatStreamingModel, delayRun, h1, if_pos]
    · by_cases h2 : t < startNow + 2000
      · refine ⟨.aborted, ⟨startNow, 0, "", 0, []⟩, ?_, Or.inr rfl⟩
        simp [chatStreamingModel, delayRun, h1, h2]
      · have hinit : delayRun (some t) startNow 2000 = .ok (startNow + 2000) := by
          simp [delayRun, h1, h2]
        have htot := @chatLoop_total cid polls dur (some t)
          (startNow + maxPollMs) hd maxPollMs
          ⟨startNow + 2000, 0, "", 0, []⟩
          (by show startNow + maxPollMs ≤ startNow + 2000 + maxPollMs; omega)
        obtain ⟨⟨r, s'⟩, heq⟩ := Option.isSome_iff_exists.mp htot
        have hmodel :
            chatStreamingModel cid polls dur (some t) startNow (maxPollMs + 1)
              = some (r, s') := by
          simp only [chatStreamingModel, maxPollMs] at hinit heq ⊢
          rw [hinit]
          exact heq
        rcases chatLoop_processing_result hp _ _ heq with
          ⟨rfl, -⟩ | ⟨rfl, habort, hpast⟩ | ⟨rfl, -, -⟩
        · exact ⟨.cancelled, s', hmodel, Or.inl rfl⟩
        · exfalso
          simp only [signalAborted, decide_eq_false_iff_not] at habort
          omega
        · exact ⟨.aborted, s', hmodel, Or.inr rfl⟩

/-- Witness for C3 at a concrete environment: a constant Processing
trace with 1 ms polls, no cancellation. -/
theorem c3_no_silent_exit_witness :
    ∃ s', chatStreamingModel "chat-1"
        (fun _ => .ok (.processing none 4)) (fun _ => 1) none 0 (maxPollMs + 1)
      = some (.error .timedOut, s') :=
  (c3_no_silent_exit "chat-1" (fun _ => .ok (.processing none 4)) (fun _ => 1) 0
    (fun _ => ⟨none, 4, rfl⟩) (fun _ => le_refl 1)).1

/-- Claim C9: a Processing status whose partial is the empty string is
treated as if the partial were absent, and `onPartial` is never
invoked with the empty string: first conjunct, no run of the poller
ever records an empty-string emission; second conjunct, the emission
guard behaves identically on `some ""` and on an absent partial. -/
theorem c9_no_empty_partial :
    (∀ (cid : String) (polls : Nat → Except String ResponseStatus)
        (dur : Nat → Nat) (abortAt : Option Nat) (startNow fuel : Nat)
        (r : Except StreamErr StreamResult) (s' : LoopState),
        chatStreamingModel cid polls dur abortAt startNow fuel = some (r, s') →
        "" ∉ s'.emitted)
    ∧ (∀ lastPart : String, emitUpdate (some "") lastPart = emitUpdate none lastPart) := by
  constructor
  · intro cid polls dur abortAt startNow fuel r s' h
    simp only [chatStreamingModel] at h
    split at h
    · simp only [Option.some.injEq, Prod.mk.injEq] at h
      obtain ⟨-, rfl⟩ := h
      simp
    · exact chatLoop_emitted_no_empty _ _ h (by simp)
  · intro lastPart
    rfl

/-- Witness for C9, applying it to the C1 run. -/
theorem c9_no_empty_partial_witness :
    "" ∉ (LoopState.mk 14000 4 "ab" 0 ["a", "ab"]).emitted :=
  c9_no_empty_partial.1 "chat-1" pollsHappy durZero none 0 10
    (.ok ⟨"done", "chat-1"⟩) ⟨14000, 4, "ab", 0, ["a", "ab"]⟩ rfl

/-- Claim C4: an error is session-loss iff it is a transport error with
HTTP status exactly 404 (401/403 are not); on session-loss the
session is reset and re-established exactly once and the call retried
exactly once, the retry's outcome — session-loss error included —
propagating unchanged with no third attempt; a non-session error
propagates with no retry and no reset. -/
theorem c4_session_loss_retry :
    (∀ e : WErr, isSessionError e = true ↔ e = .transport 404)
    ∧ (isSessionError (.transport 401) = false
        ∧ isSessionError (.transport 403) = false)
    ∧ (∀ {α : Type} (init : Nat → Except WErr Unit)
        (attempt : Nat → Except WErr α) (e : WErr),
        init 0 = .ok () → init 1 = .ok () →
        attempt 0 = .error e → isSessionError e = true →
        callToolModel init attempt = (attempt 1, 2, 1))
    ∧ (∀ {α : Type} (init : Nat → Except WErr Unit)
        (attempt : Nat → Except WErr α) (e : WErr),
        init 0 = .ok () → attempt 0 = .error e → isSessionError e = false →
        callToolModel init attempt = (.error e, 1, 0))
    ∧ (∀ {α : Type} (init : Nat → Except WErr Unit)
        (attempt : Nat → Except WErr α) (e e2 : WErr),
        init 0 = .ok () → init 1 = .ok () →
        attempt 0 = .error e → attempt 1 = .error e2 →
        isSessionError e = true →
        callToolModel init attempt = (.error e2, 2, 1)) := by
  refine ⟨?_, ⟨rfl, rfl⟩, ?_, ?_, ?_⟩
  · intro e
    cases e with
    | transport s => simp [isSessionError]
    | err m => simp [isSessionError]
  · intro α init attempt e h0 h1 ha hse
    simp [callToolModel, h0, h1, ha, hse]
  · intro α init attempt e h0 ha hse
    simp [callToolModel, h0, ha, hse]
  · intro α init attempt e e2 h0 h1 ha ha2 hse
    simp [callToolModel, h0, h1, ha, ha2, hse]

/-- The handshake oracle that always succeeds. -/
def initOk : Nat → Except WErr Unit := fun _ => .ok ()

/-- An attempt oracle whose first call hits a stale session (404) and
whose retry succeeds. -/
def attemptOnce404 : Nat → Except WErr Nat :=
  fun i => if i = 0 then .error (.transport 404) else .ok 7

/-- Witness for C4: a 404 on the first attempt leads to exactly one
reset and one retry, which succeeds. -/
theorem c4_session_loss_retry_witness :
    callToolModel initOk attemptOnce404 = (.ok 7, 2, 1) := by
  have h := c4_session_loss_retry.2.2.1 initOk attemptOnce404
    (.transport 404) rfl rfl rfl rfl
  simpa [attemptOnce404] using h

theorem idSeq_requestId :
    ∀ k : Nat, (idSeq initialClient (k + 1)).requestId
      = k % MAX_REQUEST_ID + 1 := by
  intro k
  induction k with
  | zero => rfl
  | succ k ih =>
    show (nextRequestId (idSeq initialClient (k + 1))).2.requestId = _
    simp only [nextRequestId]
    rw [ih]
    simp only [MAX_REQUEST_ID]
    omega

/-- Claim C6: request ids start at 1, increase strictly (hence are
unique) up to the 1,000,000 ceiling, wrap back to 1 on the next
allocation after the ceiling, and session invalidation resets the
counter to 0 so the next allocated id is 1. -/
theorem c6_request_id_allocation :
    ((idSeq initialClient 1).requestId = 1)
    ∧ (∀ j k : Nat, 1 ≤ j → j < k → k ≤ MAX_REQUEST_ID →
        (idSeq initialClient j).requestId < (idSeq initialClient k).requestId)
    ∧ ((idSeq initialClient MAX_REQUEST_ID).requestId = MAX_REQUEST_ID)
    ∧ ((idSeq initialClient (MAX_REQUEST_ID + 1)).requestId = 1)
    ∧ (∀ s : ClientState, (resetSession s).requestId = 0
        ∧ (nextRequestId (resetSession s)).1 = 1) := by
  refine ⟨rfl, ?_, ?_, ?_, fun s => ⟨rfl, rfl⟩⟩
  · intro j k hj hjk hk
    obtain ⟨j', rfl⟩ : ∃ j', j = j' + 1 := ⟨j - 1, by omega⟩
    obtain ⟨k', rfl⟩ : ∃ k', k = k' + 1 := ⟨k - 1, by omega⟩
    rw [idSeq_requestId, idSeq_requestId]
    simp only [MAX_REQUEST_ID] at hk ⊢
    omega
  · have hM : MAX_REQUEST_ID = 999999 + 1 := by decide
    rw [hM, idSeq_requestId]
    decide
  · rw [idSeq_requestId]
    simp [Nat.mod_self]

/-- Witness for C6: the first two allocated ids are in strict order. -/
theorem c6_request_id_allocation_witness :
    (idSeq initialClient 1).requestId < (idSeq initialClient 2).requestId :=
  c6_request_id_allocation.2.1 1 2 (by decide) (by decide) (by decide)

theorem assertString_ok_iff {v : Option Json} {field context s : String} :
    assertString v field context = .ok s ↔ v = some (.str s) := by
  cases v with
  | none => simp [assertString]
  | some j => cases j <;> simp [assertString]

/-- Claim C5: the ResponseStatus decoder accepts exactly the three
discriminator values.  First conjunct: any other string discriminator
is a decode error (never coerced to a default variant).  Second
conjunct: every successful decode comes from an object whose `status`
discriminator is one of the three recognized strings, the produced
variant matches it, and the variant-specific required field
(`response` for complete, `error` for error) was a string in the
payload. -/
theorem c5_response_status_decoder :
    (∀ (fields : List (String × Json)) (s : String),
        fields.lookup "status" = some (.str s) →
        s ≠ "processing" → s ≠ "complete" → s ≠ "error" →
        validateResponseStatus (.obj fields)
          = .error ("ResponseStatus: unknown status " ++ s))
    ∧ (∀ (raw : Json) (v : ResponseStatus),
        validateResponseStatus raw = .ok v →
        ∃ fields, raw = .obj fields ∧
          ((∃ p rt, v = .processing p rt
              ∧ fields.lookup "status" = some (.str "processing"))
           ∨ (∃ r, v = .complete r
              ∧ fields.lookup "status" = some (.str "complete")
              ∧ fields.lookup "response" = some (.str r))
           ∨ (∃ e, v = .error e
              ∧ fields.lookup "status" = some (.str "error")
              ∧ fields.lookup "error" = some (.str e)))) := by
  constructor
  · intro fields s hlook h1 h2 h3
    simp only [validateResponseStatus, assertObject, hlook, assertString]
    rw [if_neg h1, if_neg h2, if_neg h3]
  · intro raw v h
    cases raw with
    | null => simp [validateResponseStatus, assertObject] at h
    | bool b => simp [validateResponseStatus, assertObject] at h
    | num n => simp [validateResponseStatus, assertObject] at h
    | str s => simp [validateResponseStatus, assertObject] at h
    | arr xs => simp [validateResponseStatus, assertObject] at h
    | obj fields =>
      refine ⟨fields, rfl, ?_⟩
      simp only [validateResponseStatus, assertObject] at h
      cases hlook : fields.lookup "status" with
      | none => rw [hlook] at h; simp [assertString] at h
      | some j =>
        cases j with
        | str s =>
          rw [hlook] at h
          simp only [assertString] at h
          by_cases hs1 : s = "processing"
          · rw [if_pos hs1] at h
            simp only [Except.ok.injEq] at h
            subst h
            exact Or.inl ⟨_, _, rfl, by rw [hs1]⟩
          · rw [if_neg hs1] at h
            by_cases hs2 : s = "complete"
            · rw [if_pos hs2] at h
              cases hresp : List.lookup "response" fields with
              | none => rw [hresp] at h; simp at h
              | some jr =>
                rw [hresp] at h
                cases jr with
                | str r =>
                  simp only [Except.ok.injEq] at h
                  subst h
                  exact Or.inr (Or.inl ⟨r, rfl, by rw [hs2], rfl⟩)
                | null => simp at h
                | bool b => simp at h
                | num n => simp at h
                | arr xs => simp at h
                | obj f2 => simp at h
            · rw [if_neg hs2] at h
              by_cases hs3 : s = "error"
              · rw [if_pos hs3] at h
                cases hresp : List.lookup "error" fields with
                | none => rw [hresp] at h; simp at h
                | some jr =>
                  rw [hresp] at h
                  cases jr with
                  | str e =>
                    simp only [Except.ok.injEq] at h
                    subst h
                    exact Or.inr (Or.inr ⟨e, rfl, by rw [hs3], rfl⟩)
                  | null => simp at h
                  | bool b => simp at h
                  | num n => simp at h
                  | arr xs => simp at h
                  | obj f2 => simp at h
              · rw [if_neg hs3] at h
                simp at h
        | null => rw [hlook] at h; simp [assertString] at h
        | bool b => rw [hlook] at h; simp [assertString] at h
        | num n => rw [hlook] at h; simp [assertString] at h
        | arr xs => rw [hlook] at h; simp [assertString] at h
        | obj f2 => rw [hlook] at h; simp [assertString] at h

/-- Witness for C5: a payload with discriminator "bogus" fails to
decode. -/
theorem c5_response_status_decoder_witness :
    validateResponseStatus (.obj [("status", .str "bogus")])
      = .error ("ResponseStatus: unknown status " ++ "bogus") :=
  c5_response_status_decoder.1 [("status", .str "bogus")] "bogus" rfl
    (by decide) (by decide) (by decide)

/-- A 200-character non-JSON text. -/
def xs200 : String := String.mk (List.replicate 200 'x')

set_option maxRecDepth 4000

/-- Counterexample to C7 as stated: on a tool result whose
concatenated text (200 copies of x) fails JSON parsing, the raised
error's message is exactly the character-count message — it contains
neither a 100-character truncated preview of the offending text nor
the text itself. -/
theorem c7_parse_error_counterexample :
    (parseJsonModel (fun _ => none) [⟨"text", xs200⟩]
      = .error (.err "Walter returned non-JSON response (200 chars)"))
    ∧ containsSub (xs200.take 100).data
        "Walter returned non-JSON response (200 chars)".data = false
    ∧ containsSub xs200.data
        "Walter returned non-JSON response (200 chars)".data = false := by
  refine ⟨rfl, ?_, ?_⟩ <;> decide

/-- Claim C7 (amended): when strict JSON parsing of the concatenated
text fragments fails, the decode error's message reports the
character count of the offending text — it does not embed the text
or a preview of it. -/
theorem c7_parse_error_message (jsParse : String → Option Json)
    (content : List ContentItem)
    (h : jsParse (extractText content) = none) :
    parseJsonModel jsParse content
      = .error (.err ("Walter returned non-JSON response ("
          ++ toString (extractText content).length ++ " chars)")) := by
  simp [parseJsonModel, h]

/-- Witness for C7 at a one-fragment non-JSON result. -/
theorem c7_parse_error_message_witness :
    parseJsonModel (fun _ => none) [⟨"text", "x"⟩]
      = .error (.err "Walter returned non-JSON response (1 chars)") :=
  c7_parse_error_message (fun _ => none) [⟨"text", "x"⟩] rfl

/-- The JSON encoding of a `{ type, text }` content item. -/
def itemJson (c : ContentItem) : Json :=
  .obj [("type", .str c.type), ("text", .str c.text)]

theorem validateContentItem_itemJson (context : String) (c : ContentItem) :
    validateContentItem context (itemJson c) = .ok c := rfl

theorem mapExcept_itemJson (context : String) (items : List ContentItem) :
    mapExcept (validateContentItem context) (items.map itemJson)
      = .ok items := by
  induction items with
  | nil => rfl
  | cons c rest ih =>
    simp [mapExcept, validateContentItem_itemJson, ih]

/-- Counterexample to C8 as stated: a content item of the
unrecognized kind "image" carrying no `text` field is rejected by the
decoder — non-text items are not passed through unconditionally, and
a missing `text` field errors on non-text items too. -/
theorem c8_content_counterexample :
    callToolInner "t"
        (.ok (.obj [("content", .arr [.obj [("type", .str "image")]])]))
      = .error (.err
          "tools/call(t).content[]: expected string for text, got undefined") :=
  rfl

/-- Claim C8 (amended): every content item — recognized or not — must
carry a string `text` field.  First conjunct: items of arbitrary
(including unrecognized) type that do carry a string `text` are
passed through in order, unrejected.  Second conjunct: any item whose
`text` field is not a string — missing or present with a non-string
value — is a decode error, whatever its `type` string is.  Third and
fourth conjuncts: when `isError` is true the raised tool-level
error's message is the first content item's text, or "Unknown tool
error" when the content is empty. -/
theorem c8_content_items :
    (∀ (name : String) (items : List ContentItem),
        callToolInner name
            (.ok (.obj [("content", .arr (items.map itemJson))]))
          = .ok items)
    ∧ (∀ (context : String) (fields : List (String × Json)) (ty : String),
        fields.lookup "type" = some (.str ty) →
        (∀ s, fields.lookup "text" ≠ some (.str s)) →
        ∃ m, validateContentItem context (.obj fields) = .error m)
    ∧ (∀ (name : String) (c : ContentItem) (rest : List ContentItem),
        callToolInner name
            (.ok (.obj [("content", .arr ((c :: rest).map itemJson)),
                        ("isError", .bool true)]))
          = .error (.err c.text))
    ∧ (∀ name : String,
        callToolInner name
            (.ok (.obj [("content", .arr []), ("isError", .bool true)]))
          = .error (.err "Unknown tool error")) := by
  refine ⟨?_, ?_, ?_, ?_⟩
  · intro name items
    simp [callToolInner, assertObject, assertArray, mapExcept_itemJson,
      List.lookup]
  · intro context fields ty hty hnx
    simp only [validateContentItem, assertObject, hty, assertString]
    cases hlook : fields.lookup "text" with
    | none => exact ⟨_, rfl⟩
    | some j =>
      cases j with
      | str s => exact absurd hlook (hnx s)
      | null => exact ⟨_, rfl⟩
      | bool b => exact ⟨_, rfl⟩
      | num n => exact ⟨_, rfl⟩
      | arr xs => exact ⟨_, rfl⟩
      | obj f2 => exact ⟨_, rfl⟩
  · intro name c rest
    have hm := mapExcept_itemJson ("tools/call(" ++ name ++ ").content[]")
      (c :: rest)
    simp only [List.map] at hm
    simp [callToolInner, assertObject, assertArray, hm, List.lookup]
  · intro name
    rfl

/-- Witness for C8: a two-item result with one unrecognized kind
passes through in order, and an item with a numeric `text` is
rejected. -/
theorem c8_content_items_witness :
    (callToolInner "t"
        (.ok (.obj [("content",
          .arr ([⟨"text", "hello"⟩, ⟨"image", "img"⟩].map itemJson))]))
      = .ok [⟨"text", "hello"⟩, ⟨"image", "img"⟩])
    ∧ ∃ m, validateContentItem "tools/call(t).content[]"
        (.obj [("type", .str "image"), ("text", .num 3)]) = .error m :=
  ⟨c8_content_items.1 "t" [⟨"text", "hello"⟩, ⟨"image", "img"⟩],
   c8_content_items.2.1 "tools/call(t).content[]"
     [("type", Json.str "image"), ("text", Json.num 3)] "image" rfl
     (fun s h => by simp [List.lookup] at h)⟩

/-- Counterexample to C10 as stated: a present-but-empty
`mcp-session-id` header does not replace the stored session id — the
truthiness check `if (newSessionId)` skips the empty string, so the
stored id stays "old" rather than being replaced by "". -/
theorem c10_session_counterexample :
    ((rpcModel "m" ⟨true, 200, "OK", some "", .ok (.obj [])⟩
        ⟨some "old", 5, true⟩).2).sessionId = some "old"
    ∧ (some "old" : Option String) ≠ some "" := by
  exact ⟨rfl, by decide⟩

/-- Claim C10 (amended): on every HTTP response — success or not, rpc
or notification — the stored session id becomes
`captureSessionId header old`: replaced by the header value when the
header is present and non-empty, unchanged when the header is absent
(or empty), and never cleared by a response; only `resetSession`
clears it. -/
theorem c10_session_capture :
    (∀ (method : String) (resp : FetchResponse) (s : ClientState),
        ((rpcModel method resp s).2).sessionId
          = captureSessionId resp.sessionHeader s.sessionId)
    ∧ (∀ (method : String) (resp : FetchResponse) (s : ClientState),
        ((notifyModel method resp s).2).sessionId
          = captureSessionId resp.sessionHeader s.sessionId)
    ∧ (∀ (h : String) (sid : Option String), h ≠ "" →
        captureSessionId (some h) sid = some h)
    ∧ (∀ sid : Option String, captureSessionId none sid = sid)
    ∧ (∀ (hdr : Option String) (sid : Option String),
        captureSessionId hdr sid = none → sid = none)
    ∧ (∀ s : ClientState, (resetSession s).sessionId = none) := by
  refine ⟨?_, ?_, ?_, fun sid => rfl, ?_, fun s => rfl⟩
  · intro method resp s
    simp only [rpcModel]
    repeat' split
    all_goals rfl
  · intro method resp s
    simp only [notifyModel]
    split <;> rfl
  · intro h sid hne
    cases hb : h == "" with
    | false => simp [captureSessionId, hb]
    | true => exact absurd (by simpa using hb) hne
  · intro hdr sid h
    cases hdr with
    | none => exact h
    | some h' =>
      simp only [captureSessionId] at h
      split at h
      · exact h
      · simp at h

/-- Witness for C10: a non-empty header replaces an absent session
id. -/
theorem c10_session_capture_witness :
    captureSessionId (some "sess") none = some "sess" :=
  c10_session_capture.2.2.1 "sess" none (by decide)

end Walter
